import Mathlib

/-!
# Shard storage core of a time-series database (shard.go)

A shallow embedding of `shard.go`: the point codec (`marshalPoint`,
`unmarshalPoint`), the shard lifecycle (`open`, `init`, `close`), the write and
delete paths (`writeSeries`, `deleteSeries`), `Duration` and `Shards.IDs`.

The two libraries the file calls, `encoding/json` and `bolt`, are parameters of
the embedding (`JSON`, `Bolt`): the theorems stated for a `JSON` or a `Bolt`
hold for whatever these libraries do.  Small executable instances (`goJSON`,
`memBolt`) are used to evaluate the code on concrete inputs; the round trip of
the point codec, which rests on what `encoding/json` does with a value map, is
proved for `goJSON`.

Modelling conventions
* a Go byte is a `Fin 256`, a `[]byte` is a list of bytes;
* a `uint32` is a `Nat` below `2 ^ 32`, an `int64` is an `Int` in
  `[-2 ^ 63, 2 ^ 63)`;
* a run-time panic is the `Outcome.panic` result; the receiver of a method is
  never the nil pointer;
* a `time.Time` is the instant it denotes, as an integer count of nanoseconds
  since the Unix epoch (location and monotonic reading are not modelled, so
  equality of model times is `Time.Equal`);
* stateful code passes the state of the outside world explicitly.
-/

namespace Influxdb

/-! ## Basic types -/

/-- One byte. -/
abbrev Byte := Fin 256

/-- A byte slice. -/
abbrev Bytes := List Byte

/-- Result of running Go code that may panic. -/
inductive Outcome (α : Type) where
  | ret (a : α)
  | panic (msg : String)
deriving DecidableEq

/-- An error value made by a library (`encoding/json`, `bolt`, `os`). -/
structure LibError where
  msg : String
deriving DecidableEq

/-- Error values that occur in `shard.go`, by where they are made. -/
inductive Error where
  /-- The value built by `errors.New("shard already open")` in `open`. -/
  | shardAlreadyOpen
  /-- The value built by `fmt.Errorf("init: %s", err)` in `open`. -/
  | initFailed (cause : String)
  /-- A value received from a library and passed on unchanged. -/
  | lib (e : LibError)
deriving DecidableEq

/-- The `Error()` method: the text of an error value. -/
def Error.text : Error → String
  | .shardAlreadyOpen => "shard already open"
  | .initFailed cause => "init: " ++ cause
  | .lib e => e.msg

/-! ## Machine integers and memory -/

/-- Byte order of the machine the program runs on. -/
inductive ByteOrder where
  | littleEndian
  | bigEndian
deriving DecidableEq

/-- The `n` low-order base-256 digits of `x`, least significant first. -/
def leBytes : Nat → Nat → Bytes
  | 0, _ => []
  | n + 1, x => ⟨x % 256, Nat.mod_lt _ (by decide)⟩ :: leBytes n (x / 256)

/-- Value of a base-256 digit string, least significant digit first. -/
def leValue : Bytes → Nat
  | [] => 0
  | b :: bs => b.val + 256 * leValue bs

/-- The bytes that lie in memory for an `n`-byte unsigned integer `x`. -/
def memBytes (host : ByteOrder) (n x : Nat) : Bytes :=
  match host with
  | .littleEndian => leBytes n x
  | .bigEndian => (leBytes n x).reverse

/-- The unsigned integer that `n` bytes of memory denote. -/
def memValue (host : ByteOrder) (n : Nat) (mem : Bytes) : Nat :=
  match host with
  | .littleEndian => leValue (mem.take n)
  | .bigEndian => leValue (mem.take n).reverse

/-- Two-complement bit pattern of an `int64`. -/
def toUint64 (i : Int) : Nat := (i % 2 ^ 64).toNat

/-- The `int64` with a given 64-bit pattern. -/
def toInt64 (u : Nat) : Int :=
  if u % 2 ^ 64 < 2 ^ 63 then ((u % 2 ^ 64 : Nat) : Int) else ((u % 2 ^ 64 : Nat) : Int) - 2 ^ 64

/-- Result of an `int64` computation whose mathematical value is `i`. -/
def wrapInt64 (i : Int) : Int := toInt64 (toUint64 i)

/-- Memory image of a `uint32` (the store `*(*uint32)(p) = x`). -/
def storeUint32 (host : ByteOrder) (x : Nat) : Bytes := memBytes host 4 x

/-- Memory image of an `int64` (the store `*(*int64)(p) = x`). -/
def storeInt64 (host : ByteOrder) (x : Int) : Bytes := memBytes host 8 (toUint64 x)

/-- The load `*(*uint32)(p)` where `mem` is the memory starting at `p`. -/
def loadUint32 (host : ByteOrder) (mem : Bytes) : Nat := memValue host 4 mem

/-- The load `*(*int64)(p)` where `mem` is the memory starting at `p`. -/
def loadInt64 (host : ByteOrder) (mem : Bytes) : Int := toInt64 (memValue host 8 mem)

/-- Overwrite the bytes of `b` from offset `off` on with `xs`. -/
def writeAt (b : Bytes) (off : Nat) (xs : Bytes) : Bytes :=
  b.take off ++ xs ++ b.drop (off + xs.length)

/-! ## The `time` package -/

/-- An instant: nanoseconds since January 1, 1970 UTC. -/
structure Time where
  ns : Int
deriving DecidableEq

/-- Largest `time.Duration` (an `int64` count of nanoseconds). -/
def maxDuration : Int := 2 ^ 63 - 1

/-- Smallest `time.Duration`. -/
def minDuration : Int := -(2 ^ 63)

/-- The call `time.Unix(sec, nsec)`. -/
def Time.Unix (sec nsec : Int) : Time := ⟨sec * 1000000000 + nsec⟩

/-- The method `t.UnixNano()`: computed in `int64`, so it wraps around when the
instant lies outside the years 1678 to 2262. -/
def Time.UnixNano (t : Time) : Int := wrapInt64 t.ns

/-- The method `t.Sub(u)`: the duration `t - u`, replaced by the largest or the
smallest duration when it does not fit. -/
def Time.Sub (t u : Time) : Int :=
  let d := t.ns - u.ns
  if maxDuration < d then maxDuration
  else if d < minDuration then minDuration
  else d

/-- The zero value `time.Time{}`: January 1, year 1, 00:00 UTC. -/
def Time.zero : Time := Time.Unix (-62135596800) 0

/-! ## The `encoding/json` package -/

/-- The two functions of `encoding/json` that `shard.go` calls, at the type `V`
of Go values `map[string]interface{}`. -/
structure JSON (V : Type) where
  /-- The nil map, zero value of `map[string]interface{}`. -/
  nilMap : V
  /-- The call `json.Marshal(values)`. -/
  Marshal : V → Except LibError Bytes
  /-- The call `json.Unmarshal(data, &v)`: the new content of `v` and the error. -/
  Unmarshal : Bytes → V → V × Option LibError

/-! ## Point codec -/

/-- The function `marshalPoint` of `shard.go`. -/
def marshalPoint {V : Type} (J : JSON V) (host : ByteOrder)
    (seriesID : Nat) (timestamp : Time) (values : V) : Except Error Bytes :=
  let b : Bytes := List.replicate 12 0
  let b := writeAt b 0 (storeUint32 host seriesID)
  let b := writeAt b 4 (storeInt64 host timestamp.UnixNano)
  match J.Marshal values with
  | .error err => .error (.lib err)
  | .ok d => .ok (b ++ d)

/-- The function `unmarshalPoint` of `shard.go`.  The index expressions
`data[0]` and `data[4]` and the slice expression `data[12:]` are bounds-checked;
the multi-byte loads through the pointers are not. -/
def unmarshalPoint {V : Type} (J : JSON V) (host : ByteOrder) (data : Bytes) :
    Outcome (Nat × Time × V × Option Error) :=
  if data.length ≤ 0 then .panic "index out of range [0]"
  else if data.length ≤ 4 then .panic "index out of range [4]"
  else if data.length < 12 then .panic "slice bounds out of range [12:]"
  else
    let id := loadUint32 host data
    let ts := loadInt64 host (data.drop 4)
    let timestamp := Time.Unix 0 ts
    let r := J.Unmarshal (data.drop 12) J.nilMap
    .ret (id, timestamp, r.1, r.2.map .lib)

/-! ## The `bolt` package -/

/-- A call made on the transaction inside the function passed to `db.Update`. -/
inductive TxOp where
  /-- The call `tx.CreateBucketIfNotExists(name)`, its results discarded. -/
  | createBucketIfNotExists (name : Bytes)
deriving DecidableEq

/-- A function literal `func(tx *bolt.Tx) error` that returns nil: the calls it
makes on the transaction, in order. -/
structure TxFunc where
  ops : List TxOp
deriving DecidableEq

/-- The functions of `bolt` that `shard.go` calls.  `W` is the state of the
world outside the program (files, locks, open handles), `DB` the type of
non-nil `*bolt.DB` handles. -/
structure Bolt (W DB : Type) where
  /-- The call `bolt.Open(path, 0600, &bolt.Options{Timeout: 1 * time.Second})`. -/
  Open : String → W → Except LibError DB × W
  /-- The call `db.Close()`. -/
  Close : DB → W → Option LibError × W
  /-- The call `db.Update(fn)`. -/
  Update : DB → TxFunc → W → Option LibError × W

/-- Bytes of an ASCII string: the conversion `[]byte(s)`. -/
def bytesOf (s : String) : Bytes :=
  s.data.map (fun c => ⟨c.toNat % 256, Nat.mod_lt _ (by decide)⟩)

/-! ## Shard -/

/-- The struct `Shard`; `store` is `none` for the nil pointer. -/
structure Shard (DB : Type) where
  ID : Nat
  StartTime : Time
  EndTime : Time
  store : Option DB
deriving DecidableEq

/-- Result of a method call on a shard: what the call returned, the shard and
the world afterwards. -/
abbrev Step (W DB : Type) := Outcome (Option Error) × Shard DB × W

/-- The function `newShard`: the zero `Shard`. -/
def newShard (DB : Type) : Shard DB :=
  { ID := 0, StartTime := Time.zero, EndTime := Time.zero, store := none }

/-- The method `Duration`. -/
def Shard.Duration {DB : Type} (s : Shard DB) : Int := s.EndTime.Sub s.StartTime

/-- The function literal passed to `Update` in `init`. -/
def initFunc : TxFunc :=
  { ops := [.createBucketIfNotExists (bytesOf "values")] }

/-- The function literal passed to `Update` in `writeSeries`. -/
def writeFunc : TxFunc := { ops := [] }

/-- The method `init`. -/
def Shard.init {W DB : Type} (B : Bolt W DB) (s : Shard DB) (w : W) : Step W DB :=
  match s.store with
  | none => (.panic "nil pointer dereference", s, w)
  | some db =>
    let r := B.Update db initFunc w
    (.ret (r.1.map .lib), s, r.2)

/-- The method `close`. -/
def Shard.close {W DB : Type} (B : Bolt W DB) (s : Shard DB) (w : W) : Step W DB :=
  match s.store with
  | none => (.panic "nil pointer dereference", s, w)
  | some db =>
    let r := B.Close db w
    (.ret (r.1.map .lib), s, r.2)

/-- The method `open`. -/
def Shard.open {W DB : Type} (B : Bolt W DB) (s : Shard DB) (path : String) (w : W) :
    Step W DB :=
  match s.store with
  | some _ => (.ret (some .shardAlreadyOpen), s, w)
  | none =>
    match B.Open path w with
    | (.error err, w1) => (.ret (some (.lib err)), s, w1)
    | (.ok store, w1) =>
      let s1 : Shard DB := { s with store := some store }
      match s1.init B w1 with
      | (.panic msg, s2, w2) => (.panic msg, s2, w2)
      | (.ret none, s2, w2) => (.ret none, s2, w2)
      | (.ret (some err), s2, w2) =>
        match s2.close B w2 with
        | (.panic msg, s3, w3) => (.panic msg, s3, w3)
        | (.ret _, s3, w3) => (.ret (some (.initFailed err.text)), s3, w3)

set_option linter.unusedVariables false in
/-- The method `writeSeries`.  The diagnostic `fmt.Println` is not modelled. -/
def Shard.writeSeries {V W DB : Type} (J : JSON V) (B : Bolt W DB) (host : ByteOrder)
    (s : Shard DB) (overwrite : Bool) (data : Bytes) (w : W) : Step W DB :=
  match unmarshalPoint J host data with
  | .panic msg => (.panic msg, s, w)
  | .ret (id, timestamp, values, some err) => (.ret (some err), s, w)
  | .ret (id, timestamp, values, none) =>
    match s.store with
    | none => (.panic "nil pointer dereference", s, w)
    | some db =>
      let r := B.Update db writeFunc w
      (.ret (r.1.map .lib), s, r.2)

set_option linter.unusedVariables false in
/-- The method `deleteSeries`. -/
def Shard.deleteSeries {W DB : Type} (s : Shard DB) (name : String) (w : W) : Step W DB :=
  (.panic "not yet implemented", s, w)

/-! ## Shard collection -/

/-- The type `Shards`, a slice of `*Shard`; `none` is the nil pointer. -/
abbrev Shards (DB : Type) := List (Option (Shard DB))

/-- The loop of `IDs`: `i` is the loop index, the list what is left of `p`. -/
def Shards.IDs.loop {DB : Type} : Nat → Shards DB → List Nat → Outcome (List Nat)
  | _, [], ids => .ret ids
  | _, none :: _, _ => .panic "nil pointer dereference"
  | i, some s :: rest, ids => Shards.IDs.loop (i + 1) rest (ids.set i s.ID)

/-- The method `IDs`. -/
def Shards.IDs {DB : Type} (p : Shards DB) : Outcome (List Nat) :=
  let ids : List Nat := List.replicate p.length 0
  Shards.IDs.loop 0 p ids

/-! ## An executable instance of `Bolt`

An in-memory model of the part of `bolt` that `shard.go` relies on: a database
is a file holding named buckets of key/value pairs and the id of its last write
transaction; an open handle holds the lock of its file. -/

/-- A database file. -/
structure BoltFile where
  buckets : List (Bytes × List (Bytes × Bytes))
  txid : Nat
deriving DecidableEq

/-- A non-nil `*bolt.DB`. -/
structure BoltDB where
  handle : Nat
  path : String
deriving DecidableEq

/-- The world of `memBolt`: the files, the handles that are open (each holds the
lock of the file at its path) and the next fresh handle. -/
structure BoltWorld where
  files : List (String × BoltFile)
  opened : List BoltDB
  next : Nat
deriving DecidableEq

/-- The file at a path, if any. -/
def BoltWorld.file (w : BoltWorld) (path : String) : Option BoltFile :=
  (w.files.find? (fun f => f.1 == path)).map (·.2)

/-- Replace (or create) the file at a path. -/
def BoltWorld.setFile (w : BoltWorld) (path : String) (f : BoltFile) : BoltWorld :=
  { w with files := (path, f) :: w.files.filter (fun g => g.1 != path) }

/-- Whether some open handle holds the lock of the file at `path`. -/
def BoltWorld.locked (w : BoltWorld) (path : String) : Bool :=
  w.opened.any (fun db => db.path == path)

/-- Effect of one transaction call on the buckets. -/
def TxOp.apply : TxOp → List (Bytes × List (Bytes × Bytes)) → List (Bytes × List (Bytes × Bytes))
  | .createBucketIfNotExists name, bs =>
    if bs.any (fun b => b.1 == name) then bs else bs ++ [(name, [])]

/-- The model of `bolt.Open`: fails on the empty path and, after the timeout,
on a file whose lock is held; creates the file when it does not exist. -/
def memBolt.Open (path : String) (w : BoltWorld) : Except LibError BoltDB × BoltWorld :=
  if path = "" then (.error ⟨"open : no such file or directory"⟩, w)
  else if w.locked path then (.error ⟨"timeout"⟩, w)
  else
    let db : BoltDB := { handle := w.next, path := path }
    let w1 : BoltWorld :=
      match w.file path with
      | some _ => w
      | none => w.setFile path { buckets := [], txid := 1 }
    (.ok db, { w1 with opened := db :: w1.opened, next := w1.next + 1 })

/-- The model of `db.Close`: releases the handle and its lock; closing a handle
that is not open does nothing. -/
def memBolt.Close (db : BoltDB) (w : BoltWorld) : Option LibError × BoltWorld :=
  (none, { w with opened := w.opened.filter (fun d => d != db) })

/-- The model of `db.Update`: fails on a handle that is not open; otherwise runs
the function in a write transaction and commits it, which gives the file the
next transaction id. -/
def memBolt.Update (db : BoltDB) (fn : TxFunc) (w : BoltWorld) : Option LibError × BoltWorld :=
  if w.opened.contains db then
    match w.file db.path with
    | some f =>
      (none, w.setFile db.path
        { buckets := fn.ops.foldl (fun bs op => op.apply bs) f.buckets, txid := f.txid + 1 })
    | none => (some ⟨"file is gone"⟩, w)
  else (some ⟨"database not open"⟩, w)

/-- The in-memory instance of `Bolt`. -/
def memBolt : Bolt BoltWorld BoltDB :=
  { Open := memBolt.Open, Close := memBolt.Close, Update := memBolt.Update }

/-- A world with no file and no open handle. -/
def BoltWorld.empty : BoltWorld := { files := [], opened := [], next := 0 }

/-! ## An executable instance of `JSON`

A model of `json.Marshal` and `json.Unmarshal` at `map[string]interface{}` on a
fragment of JSON: an object whose member values are strings of unescaped ASCII
characters, booleans and integers of magnitude at most `2 ^ 53` (which a
`float64` holds exactly).  On a document or a value outside the fragment the
model reports an error that names the model.  As in Go, a number is decoded
into a `float64` whatever the type of the number that was encoded. -/

/-- A Go value of dynamic type `bool`, `string`, `float64` or `int`; a
`float64` is given by its value, an integer. -/
inductive Value where
  | bool (b : Bool)
  | str (s : Bytes)
  /-- The `float64` whose value is the integer `n`. -/
  | num (n : Int)
  /-- The `int` (a 64-bit integer) `n`. -/
  | int (n : Int)
deriving DecidableEq

/-- A Go map from field name to value: `none` is the nil map, otherwise the
entries in ascending key order. -/
abbrev ValueMap := Option (List (Bytes × Value))

/-- Byte-wise order of Go strings. -/
def keyLt : Bytes → Bytes → Bool
  | [], [] => false
  | [], _ :: _ => true
  | _ :: _, [] => false
  | a :: as, b :: bs => decide (a.val < b.val) || (decide (a.val = b.val) && keyLt as bs)

/-- The assignment `m[k] = v` on the entries of a map. -/
def mapSet (k : Bytes) (v : Value) : List (Bytes × Value) → List (Bytes × Value)
  | [] => [(k, v)]
  | (k1, v1) :: rest =>
    if k = k1 then (k, v) :: rest
    else if keyLt k k1 then (k, v) :: (k1, v1) :: rest
    else (k1, v1) :: mapSet k v rest

/-- Decimal digits of a number, given at least as much fuel as its value. -/
def decimal : Nat → Nat → Bytes
  | 0, _ => [48]
  | fuel + 1, n =>
    if n < 10 then [⟨(48 + n) % 256, Nat.mod_lt _ (by decide)⟩]
    else decimal fuel (n / 10) ++ [⟨(48 + n % 10) % 256, Nat.mod_lt _ (by decide)⟩]

/-- Whether the encoder copies a byte of a string unchanged. -/
def plainOut (b : Byte) : Bool :=
  decide (32 ≤ b.val) && decide (b.val < 128) && decide (b.val ≠ 34) && decide (b.val ≠ 92)
    && decide (b.val ≠ 60) && decide (b.val ≠ 62) && decide (b.val ≠ 38)

/-- Encoding of a string, inside the fragment. -/
def encString (s : Bytes) : Option Bytes :=
  if s.all plainOut then some (34 :: s ++ [34]) else none

/-- Encoding of a value, inside the fragment. -/
def encValue : Value → Option Bytes
  | .bool true => some (bytesOf "true")
  | .bool false => some (bytesOf "false")
  | .str s => encString s
  | .num n =>
    if n.natAbs ≤ 2 ^ 53 then
      some ((if n < 0 then [45] else []) ++ decimal n.natAbs n.natAbs)
    else none
  | .int n =>
    if -(2 ^ 63) ≤ n ∧ n < 2 ^ 63 then
      some ((if n < 0 then [45] else []) ++ decimal n.natAbs n.natAbs)
    else none

/-- Encoding of the members of an object, separated by commas. -/
def encMembers : List (Bytes × Value) → Option Bytes
  | [] => some []
  | (k, v) :: rest =>
    match encString k, encValue v, encMembers rest with
    | some ek, some ev, some er =>
      some (ek ++ [58] ++ ev ++ (if rest.isEmpty then [] else 44 :: er))
    | _, _, _ => none

/-- The model of `json.Marshal`: `null` for the nil map, otherwise the members
in ascending key order. -/
def goJSON.Marshal : ValueMap → Except LibError Bytes
  | none => .ok (bytesOf "null")
  | some kvs =>
    match encMembers (kvs.foldl (fun m kv => mapSet kv.1 kv.2 m) []) with
    | some body => .ok (123 :: body ++ [125])
    | none => .error ⟨"goJSON: value outside the modelled fragment"⟩

/-- Result of a decoding step. -/
inductive Parsed (α : Type) where
  | ok (a : α) (rest : Bytes)
  | malformed
  | unsupported
deriving DecidableEq

/-- JSON white space. -/
def isSpace (b : Byte) : Bool :=
  decide (b.val = 32) || decide (b.val = 9) || decide (b.val = 10) || decide (b.val = 13)

/-- Decimal digit. -/
def isDigit (b : Byte) : Bool := decide (48 ≤ b.val) && decide (b.val ≤ 57)

/-- Drop leading white space. -/
def skipSpace : Bytes → Bytes
  | [] => []
  | b :: rest => if isSpace b then skipSpace rest else b :: rest

/-- Decode a string, the input standing after its opening quote. -/
def parseString : Bytes → Parsed Bytes
  | [] => .malformed
  | b :: rest =>
    if b.val = 34 then .ok [] rest
    else if b.val < 32 then .malformed
    else if b.val = 92 ∨ 128 ≤ b.val then .unsupported
    else
      match parseString rest with
      | .ok s r => .ok (b :: s) r
      | .malformed => .malformed
      | .unsupported => .unsupported

/-- Value of a string of decimal digits. -/
def digitsValue (ds : Bytes) : Nat := ds.foldl (fun n d => 10 * n + (d.val - 48)) 0

/-- Decode a number, the input standing at its sign or first digit. -/
def parseNumber (bs : Bytes) : Parsed Value :=
  let neg : Bool := bs.head? == some 45
  let body := if neg then bs.drop 1 else bs
  let ds := body.takeWhile isDigit
  let rest := body.dropWhile isDigit
  if ds.isEmpty then .malformed
  else if ds.head? == some 48 && decide (1 < ds.length) then .malformed
  else if rest.head? == some 46 || rest.head? == some 101 || rest.head? == some 69 then
    .unsupported
  else
    let n := digitsValue ds
    if (n = 0 ∧ neg = true) ∨ 2 ^ 53 < n then .unsupported
    else .ok (.num (if neg then -(n : Int) else (n : Int))) rest

/-- Decode the rest of a literal name. -/
def parseLiteral (name : Bytes) (v : Value) (bs : Bytes) : Parsed Value :=
  if name.isPrefixOf bs then .ok v (bs.drop name.length) else .malformed

/-- Decode a member value. -/
def parseValue : Bytes → Parsed Value
  | [] => .malformed
  | b :: rest =>
    if b.val = 34 then
      match parseString rest with
      | .ok s r => .ok (.str s) r
      | .malformed => .malformed
      | .unsupported => .unsupported
    else if b.val = 116 then parseLiteral (bytesOf "rue") (.bool true) rest
    else if b.val = 102 then parseLiteral (bytesOf "alse") (.bool false) rest
    else if b.val = 110 ∨ b.val = 123 ∨ b.val = 91 then .unsupported
    else if b.val = 45 ∨ isDigit b = true then parseNumber (b :: rest)
    else .malformed

/-- Decode the members of a non-empty object into the map entries `acc`, the
input standing at the first key. -/
def parseMembers : Nat → Bytes → List (Bytes × Value) → Parsed (List (Bytes × Value))
  | 0, _, _ => .unsupported
  | fuel + 1, bs, acc =>
    match bs with
    | [] => .malformed
    | q :: afterQuote =>
      if q.val ≠ 34 then .malformed
      else
        match parseString afterQuote with
        | .malformed => .malformed
        | .unsupported => .unsupported
        | .ok k r1 =>
          match skipSpace r1 with
          | [] => .malformed
          | colon :: r2 =>
            if colon.val ≠ 58 then .malformed
            else
              match parseValue (skipSpace r2) with
              | .malformed => .malformed
              | .unsupported => .unsupported
              | .ok v r3 =>
                match skipSpace r3 with
                | [] => .malformed
                | sep :: r4 =>
                  if sep.val = 125 then .ok (mapSet k v acc) r4
                  else if sep.val = 44 then parseMembers fuel (skipSpace r4) (mapSet k v acc)
                  else .malformed

/-- Decode an object, the input standing after its opening brace. -/
def parseObject (bs : Bytes) (acc : List (Bytes × Value)) : Parsed (List (Bytes × Value)) :=
  match skipSpace bs with
  | [] => .malformed
  | c :: rest =>
    if c.val = 125 then .ok acc rest else parseMembers (bs.length + 1) (c :: rest) acc

/-- The error for a document that is not JSON. -/
def jsonBadInput : LibError := ⟨"json: invalid character or unexpected end of JSON input"⟩

/-- The error for a JSON document that is not an object. -/
def jsonBadType : LibError := ⟨"json: cannot unmarshal into Go value of type map"⟩

/-- The error for a document outside the fragment. -/
def jsonOutside : LibError := ⟨"goJSON: document outside the modelled fragment"⟩

/-- The model of `json.Unmarshal(data, &v)` for `v` of type
`map[string]interface{}`: `null` leaves `v` as it is, an object stores its
members into `v` (a fresh map when `v` is nil), anything else is an error and
leaves `v` as it is. -/
def goJSON.Unmarshal (data : Bytes) (v : ValueMap) : ValueMap × Option LibError :=
  match skipSpace data with
  | [] => (v, some jsonBadInput)
  | b :: rest =>
    if b.val = 123 then
      match parseObject rest (v.getD []) with
      | .ok kvs tail => if (skipSpace tail).isEmpty then (some kvs, none) else (v, some jsonBadInput)
      | .malformed => (v, some jsonBadInput)
      | .unsupported => (v, some jsonOutside)
    else if b.val = 110 then
      if (bytesOf "ull").isPrefixOf rest ∧ skipSpace (rest.drop 3) = [] then (v, none)
      else (v, some jsonBadInput)
    else if b.val = 34 ∨ b.val = 45 ∨ isDigit b = true ∨ b.val = 116 ∨ b.val = 102 ∨ b.val = 91 then
      (v, some jsonBadType)
    else (v, some jsonBadInput)

/-- The executable instance of `JSON`. -/
def goJSON : JSON ValueMap :=
  { nilMap := none, Marshal := goJSON.Marshal, Unmarshal := goJSON.Unmarshal }

/-- The value map with the single field `ok` set to `true`. -/
def sampleValues : ValueMap := some [(bytesOf "ok", .bool true)]

/-- The JSON text of `sampleValues`. -/
def sampleBody : Bytes := bytesOf "\x7b\"ok\":true\x7d"

/-- The record of series 7 at the zero time with `sampleValues`, as written on
a little-endian machine. -/
def zeroTimeRecord : Bytes := [7, 0, 0, 0, 0, 0, 26, 61, 235, 3, 178, 161] ++ sampleBody

/-- The record of series 7 one second after the epoch with `sampleValues`, as
written on a little-endian machine. -/
def sampleRecord : Bytes := [7, 0, 0, 0, 0, 202, 154, 59, 0, 0, 0, 0] ++ sampleBody

/-- A record whose body is the empty object. -/
def emptyMapRecord : Bytes := [7, 0, 0, 0, 0, 202, 154, 59, 0, 0, 0, 0] ++ bytesOf "\x7b\x7d"

/-- A record whose body is cut off after the opening brace. -/
def malformedRecord : Bytes := [7, 0, 0, 0, 0, 202, 154, 59, 0, 0, 0, 0] ++ bytesOf "\x7b\"ok\":"

/-- A new shard opened at `/tmp/shard` in the empty world. -/
def opened : Step BoltWorld BoltDB := (newShard BoltDB).open memBolt "/tmp/shard" BoltWorld.empty

/-- The shard of `opened`, then closed. -/
def closed : Step BoltWorld BoltDB := opened.2.1.close memBolt opened.2.2

/-- The shard of `closed`, then opened again at the same path. -/
def reopened : Step BoltWorld BoltDB := closed.2.1.open memBolt "/tmp/shard" closed.2.2

/-- A first write of `sampleRecord` without overwrite to the shard of `opened`. -/
def firstWrite : Step BoltWorld BoltDB :=
  opened.2.1.writeSeries goJSON memBolt .littleEndian false sampleRecord opened.2.2

/-- A second write of the same record without overwrite. -/
def secondWrite : Step BoltWorld BoltDB :=
  firstWrite.2.1.writeSeries goJSON memBolt .littleEndian false sampleRecord firstWrite.2.2

/-- A write of `emptyMapRecord` to the shard of `opened`. -/
def emptyWrite : Step BoltWorld BoltDB :=
  opened.2.1.writeSeries goJSON memBolt .littleEndian false emptyMapRecord opened.2.2

/-- A shard from the zero time to January 1, 2024. -/
def longShard : Shard BoltDB :=
  { ID := 1, StartTime := Time.zero, EndTime := Time.Unix 1704067200 0, store := none }

/-- A shard that covers January 1, 2024. -/
def dayShard : Shard BoltDB :=
  { ID := 2, StartTime := Time.Unix 1704067200 0, EndTime := Time.Unix 1704153600 0,
    store := none }

/-! ## Lemmas on machine integers -/

theorem leBytes_length (n x : Nat) : (leBytes n x).length = n := by
  induction n generalizing x with
  | zero => rfl
  | succ n ih => simp [leBytes, ih]

theorem leValue_leBytes (n x : Nat) : leValue (leBytes n x) = x % 256 ^ n := by
  induction n generalizing x with
  | zero => simp [leBytes, leValue, Nat.mod_one]
  | succ n ih =>
    simp only [leBytes, leValue, ih]
    rw [pow_succ', Nat.mod_mul]

theorem memBytes_length (host : ByteOrder) (n x : Nat) : (memBytes host n x).length = n := by
  cases host <;> simp [memBytes, leBytes_length]

theorem memValue_memBytes (host : ByteOrder) (n x : Nat) (rest : Bytes) :
    memValue host n (memBytes host n x ++ rest) = x % 256 ^ n := by
  have h : (memBytes host n x ++ rest).take n = memBytes host n x := by
    rw [List.take_append_of_le_length (by rw [memBytes_length])]
    rw [List.take_of_length_le (by rw [memBytes_length])]
  cases host
  · simp only [memValue]; rw [h]; simp [memBytes, leValue_leBytes]
  · simp only [memValue]; rw [h]; simp [memBytes, leValue_leBytes]

theorem toUint64_lt (i : Int) : toUint64 i < 2 ^ 64 := by
  unfold toUint64
  omega

theorem toInt64_toUint64 (i : Int) (hlo : -(2 ^ 63) ≤ i) (hhi : i < 2 ^ 63) :
    toInt64 (toUint64 i) = i := by
  unfold toInt64 toUint64
  split_ifs with h <;> omega

theorem wrapInt64_range (i : Int) : -(2 ^ 63) ≤ wrapInt64 i ∧ wrapInt64 i < 2 ^ 63 := by
  unfold wrapInt64 toInt64 toUint64
  split_ifs with h <;> omega

theorem toUint64_wrapInt64 (i : Int) : toUint64 (wrapInt64 i) = toUint64 i := by
  unfold wrapInt64 toInt64 toUint64
  split_ifs with h <;> omega

theorem storeInt64_wrapInt64 (host : ByteOrder) (i : Int) :
    storeInt64 host (wrapInt64 i) = storeInt64 host i := by
  unfold storeInt64
  rw [toUint64_wrapInt64]

theorem wrapInt64_of_range (i : Int) (hlo : -(2 ^ 63) ≤ i) (hhi : i < 2 ^ 63) :
    wrapInt64 i = i := toInt64_toUint64 i hlo hhi

theorem loadUint32_storeUint32 (host : ByteOrder) (x : Nat) (rest : Bytes) (hx : x < 2 ^ 32) :
    loadUint32 host (storeUint32 host x ++ rest) = x := by
  unfold loadUint32 storeUint32
  rw [memValue_memBytes]
  exact Nat.mod_eq_of_lt (by norm_num; omega)

theorem loadInt64_storeInt64 (host : ByteOrder) (x : Int) (rest : Bytes)
    (hlo : -(2 ^ 63) ≤ x) (hhi : x < 2 ^ 63) :
    loadInt64 host (storeInt64 host x ++ rest) = x := by
  unfold loadInt64 storeInt64
  rw [memValue_memBytes]
  have h : toUint64 x % 256 ^ 8 = toUint64 x :=
    Nat.mod_eq_of_lt (by have := toUint64_lt x; norm_num at this ⊢; omega)
  rw [h]
  exact toInt64_toUint64 x hlo hhi

theorem header_eq (host : ByteOrder) (seriesID : Nat) (ts : Int) :
    writeAt (writeAt (List.replicate 12 0) 0 (storeUint32 host seriesID)) 4 (storeInt64 host ts)
      = storeUint32 host seriesID ++ storeInt64 host ts := by
  have h4 : (storeUint32 host seriesID).length = 4 := memBytes_length host 4 seriesID
  have h8 : (storeInt64 host ts).length = 8 := memBytes_length host 8 _
  unfold writeAt
  simp [h4, h8, List.take_append_eq_append_take, List.drop_append_eq_append_drop]

/-! ## Lemmas on the JSON model -/

/-- C2, counterexample.  On a little-endian machine the record of series 7 at the
zero time `time.Time{}` has the bytes 00 00 1a 3d eb 03 b2 a1 at offsets 4 to
11: they are the `int64` -6795364578871345152, whereas the zero time lies
-62135596800000000000 ns from the epoch, a count that no `int64` holds. -/
theorem layout_zero_time_counterexample :
    marshalPoint goJSON .littleEndian 7 Time.zero sampleValues = .ok zeroTimeRecord ∧
    (zeroTimeRecord.drop 4).take 8 = [0, 0, 26, 61, 235, 3, 178, 161] ∧
    loadInt64 .littleEndian (zeroTimeRecord.drop 4) = -6795364578871345152 ∧
    Time.zero.ns = -62135596800000000000 ∧
    loadInt64 .littleEndian (zeroTimeRecord.drop 4) ≠ Time.zero.ns ∧
    ¬ (-(2 ^ 63) ≤ Time.zero.ns) :=
  ⟨rfl, by decide, by decide, by decide, by decide, by decide⟩

/-- C2, amended.  Whenever `json.Marshal` encodes the value map as `d`,
`marshalPoint` returns a record of `12 + len(d)` bytes: bytes 0 to 3 are the
series id as a `uint32` and bytes 4 to 11 are the `int64` that
`timestamp.UnixNano()` returns, both in the byte order of the machine, so that
loading them gives the series id and `UnixNano()` back; that `int64` is the
timestamp in nanoseconds since the epoch whenever those fit in an `int64`.  The
bytes from 12 on are `d`, and the first 12 bytes are the same for every value
map. -/
theorem marshalPoint_layout {V : Type} (J : JSON V) (host : ByteOrder)
    (seriesID : Nat) (timestamp : Time) (values : V) (d : Bytes)
    (hid : seriesID < 2 ^ 32) (hm : J.Marshal values = .ok d) :
    ∃ out, marshalPoint J host seriesID timestamp values = .ok out ∧
      out.length = 12 + d.length ∧
      out.take 4 = storeUint32 host seriesID ∧
      (out.drop 4).take 8 = storeInt64 host timestamp.UnixNano ∧
      out.drop 12 = d ∧
      loadUint32 host out = seriesID ∧
      loadInt64 host (out.drop 4) = timestamp.UnixNano ∧
      (-(2 ^ 63) ≤ timestamp.ns → timestamp.ns < 2 ^ 63 →
        timestamp.UnixNano = timestamp.ns ∧ loadInt64 host (out.drop 4) = timestamp.ns) ∧
      ∀ (values2 : V) (d2 : Bytes), J.Marshal values2 = .ok d2 →
        ∃ out2, marshalPoint J host seriesID timestamp values2 = .ok out2 ∧
          out2.take 12 = out.take 12 := by
  have h4 : (storeUint32 host seriesID).length = 4 := memBytes_length host 4 seriesID
  have h8 : (storeInt64 host timestamp.UnixNano).length = 8 := memBytes_length host 8 _
  have h12 : (storeUint32 host seriesID ++ storeInt64 host timestamp.UnixNano).length = 12 := by
    simp [h4, h8]
  have hdrop4 : ∀ rest : Bytes,
      (storeUint32 host seriesID ++ storeInt64 host timestamp.UnixNano ++ rest).drop 4
        = storeInt64 host timestamp.UnixNano ++ rest := by
    intro rest
    rw [List.append_assoc, List.drop_append_of_le_length (by rw [h4]), ← h4, List.drop_length]
    rfl
  have htake12 : ∀ rest : Bytes,
      (storeUint32 host seriesID ++ storeInt64 host timestamp.UnixNano ++ rest).take 12
        = storeUint32 host seriesID ++ storeInt64 host timestamp.UnixNano := by
    intro rest
    rw [List.take_append_of_le_length (by rw [h12]), List.take_of_length_le (by rw [h12])]
  have hload : loadInt64 host
      ((storeUint32 host seriesID ++ storeInt64 host timestamp.UnixNano ++ d).drop 4)
        = timestamp.UnixNano := by
    rw [hdrop4]
    exact loadInt64_storeInt64 host _ _ (wrapInt64_range _).1 (wrapInt64_range _).2
  refine ⟨storeUint32 host seriesID ++ storeInt64 host timestamp.UnixNano ++ d, ?_, ?_, ?_, ?_,
    ?_, ?_, hload, ?_, ?_⟩
  · simp only [marshalPoint, hm, header_eq]
  · simp only [List.length_append, h4, h8]
  · rw [List.append_assoc, List.take_append_of_le_length (by rw [h4]),
      List.take_of_length_le (by rw [h4])]
  · rw [hdrop4, List.take_append_of_le_length (by rw [h8]), List.take_of_length_le (by rw [h8])]
  · rw [List.drop_append_of_le_length (by rw [h12]), ← h12, List.drop_length]
    rfl
  · rw [List.append_assoc]
    exact loadUint32_storeUint32 host seriesID _ hid
  · intro hlo hhi
    refine ⟨wrapInt64_of_range _ hlo hhi, ?_⟩
    rw [hload]
    exact wrapInt64_of_range _ hlo hhi
  · intro values2 d2 hm2
    refine ⟨storeUint32 host seriesID ++ storeInt64 host timestamp.UnixNano ++ d2, ?_, ?_⟩
    · simp only [marshalPoint, hm2, header_eq]
    · rw [htake12, htake12]

/-- C2, witness: the record of series 7 one second after the epoch, whose bytes
4 to 11 hold 1000000000. -/
theorem marshalPoint_layout_witness :
    (7 < 2 ^ 32 ∧ goJSON.Marshal sampleValues = .ok sampleBody ∧
      -(2 ^ 63) ≤ (Time.Unix 1 0).ns ∧ (Time.Unix 1 0).ns < 2 ^ 63) ∧
    loadInt64 .littleEndian (sampleRecord.drop 4) = 1000000000 ∧
    ∃ out, marshalPoint goJSON .littleEndian 7 (Time.Unix 1 0) sampleValues = .ok out ∧
      out.length = 12 + sampleBody.length ∧
      out.take 4 = storeUint32 .littleEndian 7 ∧
      (out.drop 4).take 8 = storeInt64 .littleEndian (Time.Unix 1 0).UnixNano ∧
      out.drop 12 = sampleBody ∧
      loadUint32 .littleEndian out = 7 ∧
      loadInt64 .littleEndian (out.drop 4) = (Time.Unix 1 0).UnixNano ∧
      (-(2 ^ 63) ≤ (Time.Unix 1 0).ns → (Time.Unix 1 0).ns < 2 ^ 63 →
        (Time.Unix 1 0).UnixNano = (Time.Unix 1 0).ns ∧
          loadInt64 .littleEndian (out.drop 4) = (Time.Unix 1 0).ns) ∧
      ∀ (values2 : ValueMap) (d2 : Bytes), goJSON.Marshal values2 = .ok d2 →
        ∃ out2, marshalPoint goJSON .littleEndian 7 (Time.Unix 1 0) values2 = .ok out2 ∧
          out2.take 12 = out.take 12 :=
  ⟨⟨by decide, rfl, by decide, by decide⟩, by decide,
    marshalPoint_layout goJSON .littleEndian 7 (Time.Unix 1 0) sampleValues sampleBody
      (by decide) rfl⟩

/-- C3.  On every input of fewer than 12 bytes `unmarshalPoint` panics: it
returns neither a point nor an error. -/
theorem unmarshalPoint_short_input_panics {V : Type} (J : JSON V) (host : ByteOrder)
    (data : Bytes) (h : data.length < 12) :
    ∃ msg, unmarshalPoint J host data = .panic msg := by
  unfold unmarshalPoint
  split_ifs with h0 h4
  · exact ⟨_, rfl⟩
  · exact ⟨_, rfl⟩
  · exact ⟨_, rfl⟩

/-- C3, witness: the empty input. -/
theorem unmarshalPoint_short_input_panics_witness :
    ([] : Bytes).length < 12 ∧ ∃ msg, unmarshalPoint goJSON .littleEndian [] = .panic msg :=
  ⟨by decide, unmarshalPoint_short_input_panics goJSON .littleEndian [] (by decide)⟩


/-! ## Shard lifecycle: theorems -/

theorem close_shard {W DB : Type} (B : Bolt W DB) (s : Shard DB) (w : W) :
    (s.close B w).2.1 = s := by
  unfold Shard.close
  cases s.store <;> rfl

theorem open_of_store {W DB : Type} (B : Bolt W DB) (s : Shard DB) (path : String) (w : W)
    (db : DB) (h : s.store = some db) :
    s.open B path w = (.ret (some .shardAlreadyOpen), s, w) := by
  unfold Shard.open
  rw [h]

theorem open_of_nil {W DB : Type} (B : Bolt W DB) (s : Shard DB) (path : String) (w : W)
    (h : s.store = none) :
    (s.open B path w).1 ≠ .ret (some .shardAlreadyOpen) ∧
    ((s.open B path w).1 = .ret none → ∃ db, (s.open B path w).2.1.store = some db) := by
  unfold Shard.open
  rw [h]
  rcases hO : B.Open path w with ⟨r, w1⟩
  cases r with
  | error err => simp
  | ok store =>
    simp only [Shard.init]
    rcases hU : B.Update store initFunc w1 with ⟨e, w2⟩
    cases e with
    | none => simp
    | some err => simp [Shard.close]

theorem open_success_store {W DB : Type} (B : Bolt W DB) (s : Shard DB) (path : String) (w : W)
    (h : (s.open B path w).1 = .ret none) : ∃ db, (s.open B path w).2.1.store = some db := by
  cases hs : s.store with
  | none => exact (open_of_nil B s path w hs).2 h
  | some db =>
    rw [open_of_store B s path w db hs] at h
    simp at h

/-- C5.  After `open(path)` has succeeded, and `close()` has been called, a
further `open(path)` on the same shard returns the error `shard already open`:
`close` leaves the store handle of the shard in place. -/
theorem open_after_close_already_open {W DB : Type} (B : Bolt W DB) (s : Shard DB)
    (path : String) (w : W) (hopen : (s.open B path w).1 = .ret none) :
    (((s.open B path w).2.1.close B (s.open B path w).2.2).2.1.open B path
      ((s.open B path w).2.1.close B (s.open B path w).2.2).2.2).1
      = .ret (some .shardAlreadyOpen) := by
  obtain ⟨db, hdb⟩ := open_success_store B s path w hopen
  rw [open_of_store B _ path _ db (by rw [close_shard]; exact hdb)]

/-- C5, witness: a new shard is opened at `/tmp/shard` and closed, both without
error; opening it again fails with `shard already open`. -/
theorem open_after_close_already_open_witness :
    (opened.1 = .ret none ∧ closed.1 = .ret none) ∧
    reopened.1 = .ret (some .shardAlreadyOpen) :=
  ⟨⟨by decide, by decide⟩,
    open_after_close_already_open memBolt (newShard BoltDB) "/tmp/shard" BoltWorld.empty
      (by decide)⟩

/-- C6.  On a shard that holds a store handle `open` returns the error `shard
already open` and leaves the shard and the outside world as they were; and
`open` returns that error only on a shard that holds a store handle. -/
theorem open_already_open {W DB : Type} (B : Bolt W DB) (s : Shard DB) (path : String)
    (w : W) :
    (s.store ≠ none → s.open B path w = (.ret (some .shardAlreadyOpen), s, w)) ∧
    ((s.open B path w).1 = .ret (some .shardAlreadyOpen) → s.store ≠ none) := by
  constructor
  · intro h
    cases hs : s.store with
    | none => exact absurd hs h
    | some db => exact open_of_store B s path w db hs
  · intro h hs
    exact (open_of_nil B s path w hs).1 h

/-- C6, witness: the shard opened at `/tmp/shard` holds a handle, and `open` on
it fails and changes nothing. -/
theorem open_already_open_witness :
    opened.2.1.store ≠ none ∧
    opened.2.1.open memBolt "/tmp/other" opened.2.2
      = (.ret (some .shardAlreadyOpen), opened.2.1, opened.2.2) :=
  ⟨by decide, (open_already_open memBolt opened.2.1 "/tmp/other" opened.2.2).1 (by decide)⟩

/-! ## Write and delete paths: theorems -/

/-- C4.  Writing the same record twice without overwrite to an open shard: both
calls return nil, and afterwards the `values` bucket of the file is still
empty (only two empty transactions were committed). -/
theorem writeSeries_twice_evaluation :
    opened.1 = .ret none ∧
    opened.2.2.file "/tmp/shard" = some { buckets := [(bytesOf "values", [])], txid := 2 } ∧
    firstWrite.1 = .ret none ∧
    secondWrite.1 = .ret none ∧
    secondWrite.2.2.file "/tmp/shard" = some { buckets := [(bytesOf "values", [])], txid := 4 } :=
  ⟨by decide, by decide, by decide, by decide, by decide⟩

/-- C7.  The method `deleteSeries` panics with `not yet implemented` on every
shard and every series name. -/
theorem deleteSeries_panics {W DB : Type} (s : Shard DB) (name : String) (w : W) :
    s.deleteSeries name w = (.panic "not yet implemented", s, w) := rfl

/-- C10, counterexample.  A record whose body is the empty object `{}` is
accepted: `writeSeries` returns nil and a write transaction is committed (the
transaction id of the file goes from 2 to 3). -/
theorem writeSeries_empty_map_counterexample :
    unmarshalPoint goJSON .littleEndian emptyMapRecord
      = .ret (7, Time.Unix 1 0, some [], none) ∧
    opened.2.2.file "/tmp/shard" = some { buckets := [(bytesOf "values", [])], txid := 2 } ∧
    emptyWrite.1 = .ret none ∧
    emptyWrite.2.2.file "/tmp/shard" = some { buckets := [(bytesOf "values", [])], txid := 3 } :=
  ⟨rfl, by decide, by decide, by decide⟩

/-- C10, amended.  For every shard and every record of at least 12 bytes whose
body `json.Unmarshal` rejects, `writeSeries` returns the error of
`json.Unmarshal` and makes no call on the store: the shard and the outside
world are as they were. -/
theorem writeSeries_rejects_malformed {V W DB : Type} (J : JSON V) (B : Bolt W DB)
    (host : ByteOrder) (s : Shard DB) (overwrite : Bool) (data : Bytes) (w : W)
    (err : LibError) (hlen : 12 ≤ data.length)
    (hbad : (J.Unmarshal (data.drop 12) J.nilMap).2 = some err) :
    s.writeSeries J B host overwrite data w = (.ret (some (.lib err)), s, w) := by
  have h0 : ¬ data.length ≤ 0 := by omega
  have h4 : ¬ data.length ≤ 4 := by omega
  have h12 : ¬ data.length < 12 := by omega
  unfold Shard.writeSeries unmarshalPoint
  rw [if_neg h0, if_neg h4, if_neg h12]
  simp only [hbad, Option.map_some']

/-- C10, witness: a record whose body stops after `{"ok":`. -/
theorem writeSeries_rejects_malformed_witness :
    (12 ≤ malformedRecord.length ∧
      (goJSON.Unmarshal (malformedRecord.drop 12) goJSON.nilMap).2 = some jsonBadInput) ∧
    opened.2.1.writeSeries goJSON memBolt .littleEndian false malformedRecord opened.2.2
      = (.ret (some (.lib jsonBadInput)), opened.2.1, opened.2.2) :=
  ⟨⟨by decide, by decide⟩,
    writeSeries_rejects_malformed goJSON memBolt .littleEndian opened.2.1 false malformedRecord
      opened.2.2 jsonBadInput (by decide) (by decide)⟩


/-! ## Shard collection and duration: theorems -/

theorem IDs_loop_spec {DB : Type} (q : List (Shard DB)) :
    ∀ (done zeros : List Nat), zeros.length = q.length →
      Shards.IDs.loop done.length (q.map some) (done ++ zeros)
        = .ret (done ++ q.map (fun s => s.ID)) := by
  induction q with
  | nil =>
    intro done zeros hz
    have : zeros = [] := List.length_eq_zero.mp hz
    simp [Shards.IDs.loop, this]
  | cons s rest ih =>
    intro done zeros hz
    cases zeros with
    | nil => simp at hz
    | cons z zs =>
      simp only [List.map_cons, Shards.IDs.loop]
      have hset : (done ++ z :: zs).set done.length s.ID = (done ++ [s.ID]) ++ zs := by
        rw [List.set_append_right _ _ (le_refl _)]
        simp
      have hlen : done.length + 1 = (done ++ [s.ID]).length := by simp
      rw [hset, hlen, ih (done ++ [s.ID]) zs (by simpa using hz)]
      simp

/-- C8.  For every list `q` of shards, `IDs` of the slice of pointers to them
returns the list of their ids in the same order: it has the length of `q` and
its `i`-th element is the id of the `i`-th shard. -/
theorem IDs_projection {DB : Type} (q : List (Shard DB)) :
    ∃ ids, Shards.IDs (q.map some) = .ret ids ∧
      ids = q.map (fun s => s.ID) ∧
      ids.length = q.length ∧
      ∀ (i : Nat) (h : i < q.length), ids[i]? = some (q[i]).ID := by
  refine ⟨q.map (fun s => s.ID), ?_, rfl, by simp, ?_⟩
  · have h := IDs_loop_spec q [] (List.replicate q.length 0) (by simp)
    simpa [Shards.IDs] using h
  · intro i h
    simp [List.getElem?_map, List.getElem?_eq_getElem h]

/-- C8, witness: three shards, two of them with the same id. -/
theorem IDs_projection_witness :
    ∃ ids, Shards.IDs ([longShard, dayShard, longShard].map some) = .ret ids ∧
      ids = [longShard, dayShard, longShard].map (fun s => s.ID) ∧
      ids.length = [longShard, dayShard, longShard].length ∧
      ∀ (i : Nat) (h : i < [longShard, dayShard, longShard].length),
        ids[i]? = some ([longShard, dayShard, longShard][i]).ID :=
  IDs_projection [longShard, dayShard, longShard]

/-- C9, counterexample.  The shard that starts at the zero time and ends on
January 1, 2024 satisfies `StartTime <= EndTime`, its bounds are
63839664000000000000 ns apart, and its `Duration()` is 9223372036854775807 ns,
the largest `time.Duration`. -/
theorem Duration_saturates_counterexample :
    longShard.StartTime.ns ≤ longShard.EndTime.ns ∧
    longShard.EndTime.ns - longShard.StartTime.ns = 63839664000000000000 ∧
    longShard.Duration = 9223372036854775807 ∧
    longShard.Duration ≠ longShard.EndTime.ns - longShard.StartTime.ns :=
  ⟨by decide, by decide, by decide, by decide⟩

/-- C9, amended.  For every shard, `Duration()` is `EndTime - StartTime` in
nanoseconds when that difference fits in an `int64`, the largest duration when
the difference is greater and the smallest when it is less; and for every shard
with `StartTime <= EndTime` the duration is non-negative, and is zero exactly
when `StartTime = EndTime`. -/
theorem Duration_spec {DB : Type} (s : Shard DB) :
    (minDuration ≤ s.EndTime.ns - s.StartTime.ns → s.EndTime.ns - s.StartTime.ns ≤ maxDuration →
      s.Duration = s.EndTime.ns - s.StartTime.ns) ∧
    (maxDuration < s.EndTime.ns - s.StartTime.ns → s.Duration = maxDuration) ∧
    (s.EndTime.ns - s.StartTime.ns < minDuration → s.Duration = minDuration) ∧
    (s.StartTime.ns ≤ s.EndTime.ns →
      0 ≤ s.Duration ∧ (s.Duration = 0 ↔ s.StartTime = s.EndTime)) := by
  have heq : s.StartTime = s.EndTime ↔ s.StartTime.ns = s.EndTime.ns := by
    constructor
    · intro h; rw [h]
    · intro h
      cases hs : s.StartTime
      cases he : s.EndTime
      rw [hs, he] at h
      simp only at h
      rw [h]
  unfold Shard.Duration Time.Sub maxDuration minDuration
  simp only [heq]
  refine ⟨?_, ?_, ?_, ?_⟩
  · intro h1 h2
    split_ifs <;> omega
  · intro h1
    rw [if_pos h1]
  · intro h1
    split_ifs <;> omega
  · intro h1
    split_ifs <;> constructor <;> omega

/-- C9, witness: the shard that covers January 1, 2024 lasts 86400 seconds. -/
theorem Duration_spec_witness :
    (minDuration ≤ dayShard.EndTime.ns - dayShard.StartTime.ns ∧
      dayShard.EndTime.ns - dayShard.StartTime.ns ≤ maxDuration ∧
      dayShard.StartTime.ns ≤ dayShard.EndTime.ns) ∧
    dayShard.Duration = dayShard.EndTime.ns - dayShard.StartTime.ns ∧
    dayShard.Duration = 86400000000000 ∧
    0 ≤ dayShard.Duration :=
  ⟨⟨by decide, by decide, by decide⟩,
    (Duration_spec dayShard).1 (by decide) (by decide), by decide,
    ((Duration_spec dayShard).2.2.2 (by decide)).1⟩

end Influxdb
